import Mathlib

/-!
# Mindwave — verification of the time-attack session protocol and client game engines

Shallow embedding of the relevant parts of `server.js` (time-attack endpoints,
leaderboard), `student-game-engine.js` (quiz / unjumble / fill-in / debug engines,
countdown timer) and the authoring forms `faculty-create-quiz.js`,
`faculty-create-fillin.js`.  JavaScript objects become Lean structures, the
request handlers become pure functions from an explicit server state to a
(result, new state) pair, and runtime JSON values are modelled by an explicit
`JSVal` type so that JavaScript truthiness and `===` comparisons are captured
faithfully.
-/

namespace Mindwave

/-- A JSON-ish JavaScript runtime value, as it appears in a parsed request body.
`undef` models a field that is absent from the body (`undefined`). -/
inductive JSVal where
  | undef
  | null
  | bool (b : Bool)
  | num (n : Int)
  | str (s : String)
deriving DecidableEq

/-- JavaScript truthiness: `undefined`, `null`, `false`, `0` and `""` are falsy,
everything else (in our value universe) is truthy. -/
def JSVal.truthy : JSVal → Bool
  | .undef => false
  | .null => false
  | .bool b => b
  | .num n => n != 0
  | .str s => s != ""

/-- A `Game` document (the `gameSchema` of server.js): a published question of the
catalog.  Ids are modelled as `Nat`, user ids as `String` (ObjectId strings). -/
structure Game where
  id : Nat
  title : String
  type : String
  difficulty : String
  brief : String
  published : Bool
  createdBy : String
deriving DecidableEq

/-- A question as returned to the student: `select("-createdBy -published")`
strips the answer-bearing/ownership fields. -/
structure PublicGame where
  id : Nat
  title : String
  type : String
  difficulty : String
  brief : String
deriving DecidableEq

/-- `.select("-createdBy -published")` applied to a game document. -/
def stripGame (g : Game) : PublicGame :=
  ⟨g.id, g.title, g.type, g.difficulty, g.brief⟩

/-- `Game.findById` on the catalog. -/
def findGame : List Game → Nat → Option Game
  | [], _ => none
  | g :: rest, gid => if g.id = gid then some g else findGame rest gid

/-- The status enum of `timeAttackSessionSchema`. -/
inductive SessionStatus where
  | inProgress
  | completed
deriving DecidableEq

/-- A `TimeAttackSession` document (timeAttackSessionSchema of server.js).
Times are milliseconds since epoch, as `Nat`. -/
structure Session where
  studentId : String
  questions : List Nat
  currentQuestionIndex : Nat
  score : Nat
  startTime : Nat
  endTime : Option Nat
  status : SessionStatus
deriving DecidableEq

/-- A `GameSubmission` document.  `gameId` is `session.questions[idx]`, which in
JavaScript is `undefined` when the index is out of range, hence `Option`. -/
structure GameSubmissionRec where
  gameId : Option Nat
  studentId : String
  isCorrect : Bool
deriving DecidableEq

/-- A `TimeAttackLeaderboard` document. -/
structure LBEntry where
  studentId : String
  score : Nat
  timeTakenMs : Nat
  date : Nat
deriving DecidableEq

/-- The persistent server state touched by the time-attack endpoints: the session
collection (keyed by session id string), the append-only submission log, and the
leaderboard collection. -/
structure ServerState where
  sessions : List (String × Session)
  submissions : List GameSubmissionRec
  leaderboard : List LBEntry
deriving DecidableEq

/-- `TimeAttackSession.findById`. -/
def findSession : List (String × Session) → String → Option Session
  | [], _ => none
  | (k, s) :: rest, sid => if k = sid then some s else findSession rest sid

/-- `session.save()`: write the (mutated) session document back under its id. -/
def setSession : List (String × Session) → String → Session → List (String × Session)
  | [], _, _ => []
  | (k, s) :: rest, sid, s' =>
    if k = sid then (k, s') :: rest else (k, s) :: setSession rest sid s'

/-- Outcome of `POST /api/time-attack/submit`.  `badRequest` is the 400 response,
`notFound` the 404 response, `castError` models the mongoose CastError (→ 500)
raised by `findById` on a truthy non-string session id. -/
inductive SubmitResult where
  | badRequest
  | notFound
  | castError
  | inProgress (question : Option PublicGame)
  | completed (finalScore : Nat) (timeTakenMs : Nat)
deriving DecidableEq

/-- The handler of `POST /api/time-attack/submit` (server.js lines 584–636),
as a pure function of the catalog, the server state, the authenticated caller
(`req.user.sub`), the two body fields and the current wall clock (`new Date()`).
Returns the response together with the updated server state. -/
def timeAttackSubmit (catalog : List Game) (st : ServerState) (userSub : String)
    (sessionId isCorrect : JSVal) (now : Nat) : SubmitResult × ServerState :=
  -- if (!sessionId || isCorrect === undefined) return 400
  if ¬ sessionId.truthy ∨ isCorrect = JSVal.undef then (SubmitResult.badRequest, st)
  else
    match sessionId with
    | JSVal.str sid =>
      match findSession st.sessions sid with
      | none => (SubmitResult.notFound, st)
      | some session =>
        -- if (!session || session.studentId.toString() !== req.user.sub
        --     || session.status !== 'in-progress') return 404
        if session.studentId ≠ userSub ∨ session.status ≠ SessionStatus.inProgress then
          (SubmitResult.notFound, st)
        else
          -- if (isCorrect) session.score += 10
          let score1 := if isCorrect.truthy then session.score + 10 else session.score
          -- GameSubmission.create({gameId: questions[idx], studentId, isCorrect: !!isCorrect})
          let sub : GameSubmissionRec :=
            ⟨session.questions.get? session.currentQuestionIndex, userSub, isCorrect.truthy⟩
          -- session.currentQuestionIndex += 1
          let idx1 := session.currentQuestionIndex + 1
          if idx1 ≥ session.questions.length then
            -- completed: stamp endTime, write one leaderboard row, save session
            let timeTakenMs := now - session.startTime
            let session1 : Session :=
              { session with score := score1, currentQuestionIndex := idx1,
                             status := SessionStatus.completed, endTime := some now }
            (SubmitResult.completed score1 timeTakenMs,
             { sessions := setSession st.sessions sid session1,
               submissions := st.submissions ++ [sub],
               leaderboard := st.leaderboard ++ [⟨userSub, score1, timeTakenMs, now⟩] })
          else
            -- in progress: save session, return next question (answer fields stripped)
            let session1 : Session :=
              { session with score := score1, currentQuestionIndex := idx1 }
            (SubmitResult.inProgress
               ((findGame catalog (session.questions.getD idx1 0)).map stripGame),
             { sessions := setSession st.sessions sid session1,
               submissions := st.submissions ++ [sub],
               leaderboard := st.leaderboard })
    | _ => (SubmitResult.castError, st)

/-- `TIME_ATTACK_QUESTION_COUNT` (server.js line 548). -/
def TIME_ATTACK_QUESTION_COUNT : Nat := 5

/-- The `$match` stage of the start aggregation: `{published: true}` plus the
optional `type` / `difficulty` filters (added only when the body field is
truthy, modelled by `Option`). -/
def matchFilter (typeF difficultyF : Option String) (g : Game) : Bool :=
  g.published
    && (match typeF with | none => true | some t => g.type == t)
    && (match difficultyF with | none => true | some d => g.difficulty == d)

/-- Outcome of `POST /api/time-attack/start`. -/
inductive StartResult where
  | notEnoughQuestions
  | ok (sessionId : String) (question : Option PublicGame)
deriving DecidableEq

/-- The handler of `POST /api/time-attack/start` (server.js lines 550–582).
`$sample {size: 5}` draws `min 5 n` random documents from the `n` matching ones;
the model takes the first `min 5 n` matches — the theorems below only use the
size and membership of the sample, which `$sample` guarantees.  `freshId` is the
ObjectId minted for the created session, `now` the `Date.now()` default of
`startTime`. -/
def timeAttackStart (catalog : List Game) (typeF difficultyF : Option String)
    (userSub : String) (freshId : String) (now : Nat) (st : ServerState) :
    StartResult × ServerState :=
  let questions := (catalog.filter (matchFilter typeF difficultyF)).take TIME_ATTACK_QUESTION_COUNT
  if questions.length < 1 then (StartResult.notEnoughQuestions, st)
  else
    let questionIds := questions.map Game.id
    let session : Session :=
      { studentId := userSub, questions := questionIds, currentQuestionIndex := 0,
        score := 0, startTime := now, endTime := none, status := SessionStatus.inProgress }
    let firstQuestion := (findGame catalog (questionIds.getD 0 0)).map stripGame
    (StartResult.ok freshId firstQuestion,
     { st with sessions := st.sessions ++ [(freshId, session)] })

/-- The empty database. -/
def emptyState : ServerState := ⟨[], [], []⟩

/-- Server states reachable through the time-attack endpoints, starting from an
empty database.  The `start` step requires the minted ObjectId to be fresh,
which MongoDB guarantees. -/
inductive Reach : ServerState → Prop
  | init : Reach emptyState
  | start (catalog : List Game) (typeF difficultyF : Option String)
      (userSub freshId : String) (now : Nat) (st : ServerState) :
      Reach st → findSession st.sessions freshId = none →
      Reach (timeAttackStart catalog typeF difficultyF userSub freshId now st).2
  | submit (catalog : List Game) (st : ServerState) (userSub : String)
      (sessionId isCorrect : JSVal) (now : Nat) :
      Reach st →
      Reach (timeAttackSubmit catalog st userSub sessionId isCorrect now).2

/-- The cursor invariant of one session document: the cursor never exceeds the
question-sequence length, and is strictly below it while the session is still
in progress. -/
def sessionOK (s : Session) : Prop :=
  s.currentQuestionIndex ≤ s.questions.length ∧
    (s.status = SessionStatus.inProgress → s.currentQuestionIndex < s.questions.length)

/-- The cursor invariant over the whole session collection. -/
def stateOK (st : ServerState) : Prop :=
  ∀ sid s, findSession st.sessions sid = some s → sessionOK s

theorem findSession_append (l l' : List (String × Session)) (sid : String) :
    findSession (l ++ l') sid =
      match findSession l sid with
      | some s => some s
      | none => findSession l' sid := by
  induction l with
  | nil => simp [findSession]
  | cons p rest ih =>
    obtain ⟨k, s⟩ := p
    by_cases h : k = sid <;> simp [findSession, h, ih]

theorem findSession_setSession (l : List (String × Session)) (sid x : String) (s' : Session) :
    findSession (setSession l sid s') x =
      if x = sid ∧ (findSession l sid).isSome then some s'
      else findSession l x := by
  induction l with
  | nil => simp [findSession, setSession]
  | cons p rest ih =>
    obtain ⟨k, s⟩ := p
    by_cases hk : k = sid
    · subst hk
      by_cases hx : k = x
      · subst hx
        simp [findSession, setSession]
      · have hx' : ¬ x = k := fun h => hx h.symm
        simp [findSession, setSession, hx, hx']
    · by_cases hx : k = x
      · subst hx
        have hx' : ¬ k = sid := hk
        have hs : ¬ (k = sid ∧ (findSession ((k, s) :: rest) sid).isSome) := by
          intro hc; exact hx' hc.1
        simp [findSession, setSession, hk, hs]
      · simp [findSession, setSession, hk, hx, ih]

/-- `timeAttackSubmit` with a missing/falsy `sessionId` or missing `isCorrect`
is the 400 response and leaves the state unchanged. -/
theorem submit_badRequest_eq (catalog : List Game) (st : ServerState) (userSub : String)
    (sessionId isCorrect : JSVal) (now : Nat)
    (h : ¬ sessionId.truthy = true ∨ isCorrect = JSVal.undef) :
    timeAttackSubmit catalog st userSub sessionId isCorrect now =
      (SubmitResult.badRequest, st) := by
  unfold timeAttackSubmit
  rw [if_pos h]

/-- `timeAttackSubmit` with an unknown session id is the 404 response and leaves
the state unchanged. -/
theorem submit_absent_eq (catalog : List Game) (st : ServerState) (userSub : String)
    (sid : String) (isCorrect : JSVal) (now : Nat)
    (hsid : sid ≠ "") (hic : isCorrect ≠ JSVal.undef)
    (hfind : findSession st.sessions sid = none) :
    timeAttackSubmit catalog st userSub (JSVal.str sid) isCorrect now =
      (SubmitResult.notFound, st) := by
  have ht : (JSVal.str sid).truthy = true := by
    simp [JSVal.truthy, hsid]
  unfold timeAttackSubmit
  rw [if_neg (by simp [ht, hic])]
  simp [hfind]

/-- `timeAttackSubmit` against a session owned by another student or already
completed is the 404 response and leaves the state unchanged. -/
theorem submit_guard_eq (catalog : List Game) (st : ServerState) (userSub : String)
    (sid : String) (isCorrect : JSVal) (now : Nat) (session : Session)
    (hsid : sid ≠ "") (hic : isCorrect ≠ JSVal.undef)
    (hfind : findSession st.sessions sid = some session)
    (hrej : session.studentId ≠ userSub ∨ session.status ≠ SessionStatus.inProgress) :
    timeAttackSubmit catalog st userSub (JSVal.str sid) isCorrect now =
      (SubmitResult.notFound, st) := by
  have ht : (JSVal.str sid).truthy = true := by
    simp [JSVal.truthy, hsid]
  unfold timeAttackSubmit
  rw [if_neg (by simp [ht, hic])]
  simp only [hfind]
  rw [if_pos hrej]

/-- The accepted path of `timeAttackSubmit`, written out: the score is bumped by
10 exactly when `isCorrect` is truthy, one `GameSubmission` is appended for the
question at the pre-submit cursor, the cursor advances by one, and the session
either completes (stamping `endTime` and appending one leaderboard row) or
stays in progress (returning the next question). -/
theorem submit_accepted_eq (catalog : List Game) (st : ServerState) (userSub : String)
    (sid : String) (isCorrect : JSVal) (now : Nat) (session : Session)
    (hsid : sid ≠ "") (hic : isCorrect ≠ JSVal.undef)
    (hfind : findSession st.sessions sid = some session)
    (hown : session.studentId = userSub)
    (hstat : session.status = SessionStatus.inProgress) :
    timeAttackSubmit catalog st userSub (JSVal.str sid) isCorrect now =
      (let score1 := if isCorrect.truthy then session.score + 10 else session.score
       let sub : GameSubmissionRec :=
         ⟨session.questions.get? session.currentQuestionIndex, userSub, isCorrect.truthy⟩
       let idx1 := session.currentQuestionIndex + 1
       if idx1 ≥ session.questions.length then
         (SubmitResult.completed score1 (now - session.startTime),
          { sessions := setSession st.sessions sid
              { session with score := score1, currentQuestionIndex := idx1,
                             status := SessionStatus.completed, endTime := some now },
            submissions := st.submissions ++ [sub],
            leaderboard :=
              st.leaderboard ++ [⟨userSub, score1, now - session.startTime, now⟩] })
       else
         (SubmitResult.inProgress
            ((findGame catalog (session.questions.getD idx1 0)).map stripGame),
          { sessions := setSession st.sessions sid
              { session with score := score1, currentQuestionIndex := idx1 },
            submissions := st.submissions ++ [sub],
            leaderboard := st.leaderboard })) := by
  have ht : (JSVal.str sid).truthy = true := by
    simp [JSVal.truthy, hsid]
  unfold timeAttackSubmit
  rw [if_neg (by simp [ht, hic])]
  simp only [hfind]
  rw [if_neg (by simp [hown, hstat])]

theorem stateOK_start (catalog : List Game) (typeF difficultyF : Option String)
    (userSub freshId : String) (now : Nat) (st : ServerState)
    (hok : stateOK st) :
    stateOK (timeAttackStart catalog typeF difficultyF userSub freshId now st).2 := by
  simp only [timeAttackStart]
  split
  · exact hok
  · rename_i hne
    intro sid s hfind
    simp only at hfind
    rw [findSession_append] at hfind
    cases h : findSession st.sessions sid with
    | none =>
      rw [h] at hfind
      simp only [findSession] at hfind
      split at hfind
      · cases hfind
        refine ⟨Nat.zero_le _, fun _ => ?_⟩
        simp only [List.length_map]
        omega
      · cases hfind
    | some s₀ =>
      rw [h] at hfind
      cases hfind
      exact hok sid _ h

theorem stateOK_submit (catalog : List Game) (st : ServerState) (userSub : String)
    (sessionId isCorrect : JSVal) (now : Nat) (hok : stateOK st) :
    stateOK (timeAttackSubmit catalog st userSub sessionId isCorrect now).2 := by
  by_cases hbad : ¬ sessionId.truthy = true ∨ isCorrect = JSVal.undef
  · rw [submit_badRequest_eq catalog st userSub sessionId isCorrect now hbad]
    exact hok
  · push_neg at hbad
    obtain ⟨htru, hic⟩ := hbad
    cases sessionId with
    | undef => simp [JSVal.truthy] at htru
    | null => simp [JSVal.truthy] at htru
    | bool b =>
      unfold timeAttackSubmit
      rw [if_neg (by simp [htru, hic])]
      exact hok
    | num n =>
      unfold timeAttackSubmit
      rw [if_neg (by simp [htru, hic])]
      exact hok
    | str sid =>
      have hsid : sid ≠ "" := by
        intro h; rw [h] at htru; simp [JSVal.truthy] at htru
      rcases h : findSession st.sessions sid with _ | session
      · rw [submit_absent_eq catalog st userSub sid isCorrect now hsid hic h]
        exact hok
      · by_cases hrej : session.studentId ≠ userSub ∨ session.status ≠ SessionStatus.inProgress
        · rw [submit_guard_eq catalog st userSub sid isCorrect now session hsid hic h hrej]
          exact hok
        · push_neg at hrej
          obtain ⟨hown, hstat⟩ := hrej
          rw [submit_accepted_eq catalog st userSub sid isCorrect now session hsid hic h hown hstat]
          have hlt : session.currentQuestionIndex < session.questions.length :=
            (hok sid session h).2 hstat
          simp only
          split
          · rename_i hdone
            intro x s' hfind
            simp only at hfind
            rw [findSession_setSession] at hfind
            split at hfind
            · cases hfind
              refine ⟨by simp only []; omega, fun hc => ?_⟩
              simp at hc
            · exact hok x s' hfind
          · rename_i hnot
            push_neg at hnot
            intro x s' hfind
            simp only at hfind
            rw [findSession_setSession] at hfind
            split at hfind
            · cases hfind
              exact ⟨Nat.le_of_lt hnot, fun _ => hnot⟩
            · exact hok x s' hfind

/-- Every reachable server state satisfies the cursor invariant. -/
theorem reach_stateOK (st : ServerState) (h : Reach st) : stateOK st := by
  induction h with
  | init => intro sid s hfind; cases hfind
  | start catalog typeF difficultyF userSub freshId now st _ _ ih =>
    exact stateOK_start catalog typeF difficultyF userSub freshId now st ih
  | submit catalog st userSub sessionId isCorrect now _ ih =>
    exact stateOK_submit catalog st userSub sessionId isCorrect now ih

/-- C1: for every time-attack session in a reachable server state, the cursor
never exceeds the length of the session's question sequence; and each accepted
submit call (one that is neither a 400 nor a 404) increases
`currentQuestionIndex` by exactly 1, keeps it within the (unchanged) question
sequence, and sets the status to `completed` exactly when the new cursor equals
the sequence length. -/
theorem time_attack_cursor_invariant (st : ServerState) (hreach : Reach st) :
    (∀ sid s, findSession st.sessions sid = some s →
        s.currentQuestionIndex ≤ s.questions.length) ∧
    (∀ catalog userSub sid isCorrect now s s',
        (timeAttackSubmit catalog st userSub (JSVal.str sid) isCorrect now).1 ≠
          SubmitResult.badRequest →
        (timeAttackSubmit catalog st userSub (JSVal.str sid) isCorrect now).1 ≠
          SubmitResult.notFound →
        findSession st.sessions sid = some s →
        findSession (timeAttackSubmit catalog st userSub (JSVal.str sid) isCorrect now).2.sessions
            sid = some s' →
        s'.currentQuestionIndex = s.currentQuestionIndex + 1 ∧
        s'.questions = s.questions ∧
        s'.currentQuestionIndex ≤ s'.questions.length ∧
        (s'.status = SessionStatus.completed ↔
          s'.currentQuestionIndex = s'.questions.length)) := by
  refine ⟨fun sid s hfind => (reach_stateOK st hreach sid s hfind).1, ?_⟩
  intro catalog userSub sid isCorrect now s s' hbad hnf hfind hfind'
  by_cases hb : ¬ (JSVal.str sid).truthy = true ∨ isCorrect = JSVal.undef
  · rw [submit_badRequest_eq catalog st userSub (JSVal.str sid) isCorrect now hb] at hbad
    exact absurd rfl hbad
  · push_neg at hb
    obtain ⟨htru, hic⟩ := hb
    have hsid : sid ≠ "" := by
      intro h; rw [h] at htru; simp [JSVal.truthy] at htru
    by_cases hrej : s.studentId ≠ userSub ∨ s.status ≠ SessionStatus.inProgress
    · rw [submit_guard_eq catalog st userSub sid isCorrect now s hsid hic hfind hrej] at hnf
      exact absurd rfl hnf
    · push_neg at hrej
      obtain ⟨hown, hstat⟩ := hrej
      have hlt : s.currentQuestionIndex < s.questions.length :=
        (reach_stateOK st hreach sid s hfind).2 hstat
      rw [submit_accepted_eq catalog st userSub sid isCorrect now s hsid hic hfind hown hstat]
        at hfind'
      simp only at hfind'
      split at hfind'
      · rename_i hdone
        rw [findSession_setSession] at hfind'
        rw [if_pos ⟨rfl, by rw [hfind]; rfl⟩] at hfind'
        cases hfind'
        refine ⟨rfl, rfl, by simp only []; omega, ?_⟩
        simp only []
        constructor
        · intro _; omega
        · intro _; trivial
      · rename_i hnot
        push_neg at hnot
        rw [findSession_setSession] at hfind'
        rw [if_pos ⟨rfl, by rw [hfind]; rfl⟩] at hfind'
        cases hfind'
        refine ⟨rfl, rfl, by simp only []; omega, ?_⟩
        simp only []
        constructor
        · intro hc
          rw [hstat] at hc
          cases hc
        · intro hc
          omega

/-- A one-question catalog used by the concrete witnesses. -/
def demoCatalog : List Game :=
  [{ id := 1, title := "t", type := "quiz", difficulty := "easy", brief := "b",
     published := true, createdBy := "admin" }]

/-- The state after starting one time-attack session on `demoCatalog`. -/
def demoState1 : ServerState :=
  (timeAttackStart demoCatalog none none "u" "s1" 0 emptyState).2

theorem demoState1_reach : Reach demoState1 :=
  Reach.start demoCatalog none none "u" "s1" 0 emptyState Reach.init rfl

/-- The freshly created demo session. -/
def demoSession1 : Session :=
  { studentId := "u", questions := [1], currentQuestionIndex := 0, score := 0,
    startTime := 0, endTime := none, status := SessionStatus.inProgress }

/-- The demo session after one correct submission (which completes it). -/
def demoSession2 : Session :=
  { studentId := "u", questions := [1], currentQuestionIndex := 1, score := 10,
    startTime := 0, endTime := some 5, status := SessionStatus.completed }

/-- Witness for C1 at a concrete reachable state: one accepted submit on the
demo session advances the cursor from 0 to 1 = sequence length and completes. -/
theorem time_attack_cursor_invariant_witness :
    demoSession2.currentQuestionIndex = demoSession1.currentQuestionIndex + 1 ∧
    demoSession2.questions = demoSession1.questions ∧
    demoSession2.currentQuestionIndex ≤ demoSession2.questions.length ∧
    (demoSession2.status = SessionStatus.completed ↔
      demoSession2.currentQuestionIndex = demoSession2.questions.length) :=
  (time_attack_cursor_invariant demoState1 demoState1_reach).2 demoCatalog "u" "s1"
    (JSVal.bool true) 5 demoSession1 demoSession2
    (by decide) (by decide) (by decide) (by decide)

/-- C2: a well-formed submit call against a session that is absent, owned by a
different student, or already completed yields the 404 response and leaves the
server state completely unchanged — same sessions (hence same score and
cursor), no `GameSubmission` appended, no leaderboard row written.  Since a
session only transitions to `completed` inside an accepted submit, and any
submit against an already-completed session falls under this theorem, a session
reaches `completed` at most once. -/
theorem submit_rejected_no_state_change (catalog : List Game) (st : ServerState)
    (userSub sid : String) (isCorrect : JSVal) (now : Nat)
    (hsid : sid ≠ "") (hic : isCorrect ≠ JSVal.undef)
    (hrej : findSession st.sessions sid = none ∨
      ∃ s, findSession st.sessions sid = some s ∧
        (s.studentId ≠ userSub ∨ s.status = SessionStatus.completed)) :
    timeAttackSubmit catalog st userSub (JSVal.str sid) isCorrect now =
      (SubmitResult.notFound, st) := by
  rcases hrej with h | ⟨s, hfind, hcase⟩
  · exact submit_absent_eq catalog st userSub sid isCorrect now hsid hic h
  · refine submit_guard_eq catalog st userSub sid isCorrect now s hsid hic hfind ?_
    rcases hcase with h1 | h2
    · exact Or.inl h1
    · refine Or.inr ?_
      rw [h2]
      intro hc
      cases hc

/-- The server state after the demo session has been completed by one correct
submission. -/
def demoState2 : ServerState :=
  (timeAttackSubmit demoCatalog demoState1 "u" (JSVal.str "s1") (JSVal.bool true) 5).2

/-- Witness for C2: a second submit against the completed demo session is a 404
and changes nothing. -/
theorem submit_rejected_no_state_change_witness :
    timeAttackSubmit demoCatalog demoState2 "u" (JSVal.str "s1") (JSVal.bool true) 9 =
      (SubmitResult.notFound, demoState2) :=
  submit_rejected_no_state_change demoCatalog demoState2 "u" "s1" (JSVal.bool true) 9
    (by decide) (by decide)
    (Or.inr ⟨demoSession2, by decide, Or.inr (by decide)⟩)

/-- C3: an accepted submit whose advanced cursor equals the question-sequence
length completes the session: status becomes `completed`, `endTime` is stamped
with the current clock, exactly one leaderboard row is appended carrying the
accumulated score (10 more when this last answer was correct) and
`timeTakenMs = endTime − startTime`, and the response carries the final score
and that duration. -/
theorem submit_completing (catalog : List Game) (st : ServerState)
    (userSub sid : String) (isCorrect : JSVal) (now : Nat) (s : Session)
    (hsid : sid ≠ "") (hic : isCorrect ≠ JSVal.undef)
    (hfind : findSession st.sessions sid = some s)
    (hown : s.studentId = userSub)
    (hstat : s.status = SessionStatus.inProgress)
    (hlast : s.currentQuestionIndex + 1 = s.questions.length) :
    timeAttackSubmit catalog st userSub (JSVal.str sid) isCorrect now =
      (SubmitResult.completed (if isCorrect.truthy then s.score + 10 else s.score)
         (now - s.startTime),
       { sessions := setSession st.sessions sid
           { s with score := if isCorrect.truthy then s.score + 10 else s.score,
                    currentQuestionIndex := s.currentQuestionIndex + 1,
                    status := SessionStatus.completed, endTime := some now },
         submissions := st.submissions ++
           [⟨s.questions.get? s.currentQuestionIndex, userSub, isCorrect.truthy⟩],
         leaderboard := st.leaderboard ++
           [⟨userSub, if isCorrect.truthy then s.score + 10 else s.score,
             now - s.startTime, now⟩] }) := by
  rw [submit_accepted_eq catalog st userSub sid isCorrect now s hsid hic hfind hown hstat]
  simp only
  rw [if_pos (by omega : s.currentQuestionIndex + 1 ≥ s.questions.length)]

/-- A three-question catalog for the completion scenario of C3. -/
def demoCatalog3 : List Game :=
  [{ id := 1, title := "t1", type := "quiz", difficulty := "easy", brief := "b1",
     published := true, createdBy := "admin" },
   { id := 2, title := "t2", type := "quiz", difficulty := "easy", brief := "b2",
     published := true, createdBy := "admin" },
   { id := 3, title := "t3", type := "quiz", difficulty := "easy", brief := "b3",
     published := true, createdBy := "admin" }]

/-- State after starting a 3-question session. -/
def demoStateA : ServerState :=
  (timeAttackStart demoCatalog3 none none "u" "s3" 100 emptyState).2

/-- State after the first correct answer. -/
def demoStateB : ServerState :=
  (timeAttackSubmit demoCatalog3 demoStateA "u" (JSVal.str "s3") (JSVal.bool true) 101).2

/-- State after the second correct answer. -/
def demoStateC : ServerState :=
  (timeAttackSubmit demoCatalog3 demoStateB "u" (JSVal.str "s3") (JSVal.bool true) 102).2

/-- The demo 3-question session after two correct answers. -/
def demoSessionC : Session :=
  { studentId := "u", questions := [1, 2, 3], currentQuestionIndex := 2, score := 20,
    startTime := 100, endTime := none, status := SessionStatus.inProgress }

/-- Witness for C3: the third correct answer of a 3-question session completes
it with `finalScore = 30` and exactly one leaderboard row for that student. -/
theorem submit_completing_witness :
    (timeAttackSubmit demoCatalog3 demoStateC "u" (JSVal.str "s3") (JSVal.bool true) 107).1 =
      SubmitResult.completed 30 7 ∧
    (timeAttackSubmit demoCatalog3 demoStateC "u" (JSVal.str "s3")
        (JSVal.bool true) 107).2.leaderboard = [⟨"u", 30, 7, 107⟩] ∧
    findSession (timeAttackSubmit demoCatalog3 demoStateC "u" (JSVal.str "s3")
        (JSVal.bool true) 107).2.sessions "s3" =
      some { studentId := "u", questions := [1, 2, 3], currentQuestionIndex := 3,
             score := 30, startTime := 100, endTime := some 107,
             status := SessionStatus.completed } := by
  rw [submit_completing demoCatalog3 demoStateC "u" "s3" (JSVal.bool true) 107 demoSessionC
    (by decide) (by decide) (by decide) (by decide) (by decide) (by decide)]
  refine ⟨by decide, by decide, by decide⟩

/-- C4 (amended): `start` responds 404 NotEnoughQuestions and leaves the state
unchanged exactly when no published question matches the filters; otherwise it
creates a session with cursor 0, score 0, status in-progress whose question
sequence is fixed at creation with length `min 5 (number of matching
questions)` — not always 5 — and returns the fresh session id together with
the first question. -/
theorem time_attack_start_spec (catalog : List Game) (typeF difficultyF : Option String)
    (userSub freshId : String) (now : Nat) (st : ServerState)
    (hfresh : findSession st.sessions freshId = none) :
    (((timeAttackStart catalog typeF difficultyF userSub freshId now st).1 =
          StartResult.notEnoughQuestions ∧
        (timeAttackStart catalog typeF difficultyF userSub freshId now st).2 = st) ↔
      catalog.filter (matchFilter typeF difficultyF) = []) ∧
    (catalog.filter (matchFilter typeF difficultyF) ≠ [] →
      (timeAttackStart catalog typeF difficultyF userSub freshId now st).1 =
        StartResult.ok freshId
          ((findGame catalog
              ((((catalog.filter (matchFilter typeF difficultyF)).take
                  TIME_ATTACK_QUESTION_COUNT).map Game.id).getD 0 0)).map stripGame) ∧
      findSession (timeAttackStart catalog typeF difficultyF userSub freshId now st).2.sessions
          freshId =
        some { studentId := userSub,
               questions := ((catalog.filter (matchFilter typeF difficultyF)).take
                  TIME_ATTACK_QUESTION_COUNT).map Game.id,
               currentQuestionIndex := 0, score := 0, startTime := now,
               endTime := none, status := SessionStatus.inProgress } ∧
      (((catalog.filter (matchFilter typeF difficultyF)).take
          TIME_ATTACK_QUESTION_COUNT).map Game.id).length =
        min TIME_ATTACK_QUESTION_COUNT
          (catalog.filter (matchFilter typeF difficultyF)).length) := by
  by_cases hm : catalog.filter (matchFilter typeF difficultyF) = []
  · have h1 : timeAttackStart catalog typeF difficultyF userSub freshId now st =
        (StartResult.notEnoughQuestions, st) := by
      simp only [timeAttackStart, hm, List.take_nil, List.length_nil]
      rw [if_pos Nat.zero_lt_one]
    rw [h1]
    exact ⟨⟨fun _ => hm, fun _ => ⟨rfl, rfl⟩⟩, fun hne => absurd hm hne⟩
  · have hlen : 0 < (catalog.filter (matchFilter typeF difficultyF)).length :=
      List.length_pos.mpr hm
    have htake : ¬ ((catalog.filter (matchFilter typeF difficultyF)).take
        TIME_ATTACK_QUESTION_COUNT).length < 1 := by
      rw [List.length_take]
      simp only [TIME_ATTACK_QUESTION_COUNT]
      omega
    constructor
    · constructor
      · intro ⟨h1, _⟩
        simp only [timeAttackStart] at h1
        rw [if_neg htake] at h1
        cases h1
      · intro h
        exact absurd h hm
    · intro _
      refine ⟨?_, ?_, ?_⟩
      · simp only [timeAttackStart]
        rw [if_neg htake]
      · simp only [timeAttackStart]
        rw [if_neg htake]
        simp only
        rw [findSession_append, hfresh]
        simp [findSession]
      · rw [List.length_map, List.length_take]

/-- Counterexample to C4 as stated: a catalog with exactly one matching
published question lets `start` succeed, and the created session's question
sequence has length 1, not the configured question count 5. -/
theorem time_attack_start_count_cex :
    (timeAttackStart demoCatalog none none "u" "s1" 0 emptyState).1 ≠
      StartResult.notEnoughQuestions ∧
    (findSession (timeAttackStart demoCatalog none none "u" "s1" 0
        emptyState).2.sessions "s1").map (fun s => s.questions.length) = some 1 ∧
    (1 : Nat) ≠ TIME_ATTACK_QUESTION_COUNT := by decide

/-- Witness for C4 (amended) on the one-question demo catalog. -/
theorem time_attack_start_spec_witness :
    (timeAttackStart demoCatalog none none "u" "s1" 0 emptyState).1 =
      StartResult.ok "s1" (some ⟨1, "t", "quiz", "easy", "b"⟩) ∧
    findSession demoState1.sessions "s1" = some demoSession1 ∧
    demoSession1.questions.length =
      min TIME_ATTACK_QUESTION_COUNT
        (demoCatalog.filter (matchFilter none none)).length := by
  have h := (time_attack_start_spec demoCatalog none none "u" "s1" 0 emptyState rfl).2
    (by decide)
  exact ⟨h.1.trans (by decide), h.2.1.trans (by decide), by decide⟩

/-- The sort key of `GET /api/leaderboard/time-attack`:
`.sort({score: -1, timeTakenMs: 1})` — `a` may be placed before `b` iff `a` has
a strictly larger score, or an equal score and no larger time. -/
def rankAbove (a b : LBEntry) : Prop :=
  b.score < a.score ∨ (a.score = b.score ∧ a.timeTakenMs ≤ b.timeTakenMs)

instance : DecidableRel rankAbove := fun a b => by
  unfold rankAbove
  exact inferInstance

instance : IsTotal LBEntry rankAbove :=
  ⟨fun a b => by unfold rankAbove; omega⟩

instance : IsTrans LBEntry rankAbove :=
  ⟨fun a b c hab hbc => by unfold rankAbove at *; omega⟩

/-- The handler of `GET /api/leaderboard/time-attack` (server.js lines 639–651):
all leaderboard rows sorted by score descending then time ascending, limited to
the first 10. -/
def timeAttackLeaderboardTop (entries : List LBEntry) : List LBEntry :=
  (List.insertionSort rankAbove entries).take 10

/-- C5 (amended): the leaderboard endpoint returns at most 10 entries, and for
any two returned entries A and B that differ in score or in timeTakenMs, A is
ranked above B if and only if A.score > B.score, or the scores are equal and
A.timeTakenMs < B.timeTakenMs.  (Entries tied on both fields are ordered
arbitrarily, so the equivalence cannot hold for them.) -/
theorem leaderboard_top_spec (entries : List LBEntry) :
    (timeAttackLeaderboardTop entries).length ≤ 10 ∧
    ∀ (i j : Fin (timeAttackLeaderboardTop entries).length),
      ¬(((timeAttackLeaderboardTop entries).get i).score =
            ((timeAttackLeaderboardTop entries).get j).score ∧
          ((timeAttackLeaderboardTop entries).get i).timeTakenMs =
            ((timeAttackLeaderboardTop entries).get j).timeTakenMs) →
      ((i : Nat) < (j : Nat) ↔
        (((timeAttackLeaderboardTop entries).get j).score <
            ((timeAttackLeaderboardTop entries).get i).score ∨
          (((timeAttackLeaderboardTop entries).get i).score =
              ((timeAttackLeaderboardTop entries).get j).score ∧
            ((timeAttackLeaderboardTop entries).get i).timeTakenMs <
              ((timeAttackLeaderboardTop entries).get j).timeTakenMs))) := by
  have hsorted : List.Sorted rankAbove (List.insertionSort rankAbove entries) :=
    List.sorted_insertionSort rankAbove entries
  have hpair : List.Pairwise rankAbove (timeAttackLeaderboardTop entries) :=
    hsorted.sublist (List.take_sublist 10 _)
  have hget := List.pairwise_iff_get.mp hpair
  constructor
  · simp only [timeAttackLeaderboardTop, List.length_take]
    exact Nat.min_le_left _ _
  · intro i j hd
    constructor
    · intro hij
      have h := hget i j hij
      unfold rankAbove at h
      omega
    · intro hcond
      rcases Nat.lt_trichotomy (i : Nat) (j : Nat) with h | h | h
      · exact h
      · exfalso
        have : i = j := Fin.ext h
        subst this
        omega
      · exfalso
        have hr := hget j i h
        unfold rankAbove at hr
        omega

/-- Two leaderboard rows tied on both score and time, used by the C5
counterexample. -/
def demoTiedLB : List LBEntry := [⟨"a", 10, 100, 0⟩, ⟨"b", 10, 100, 0⟩]

/-- Counterexample to C5 as stated: with two entries tied on both score and
timeTakenMs, the first returned entry is ranked above the second, yet neither
`A.score > B.score` nor `scores equal ∧ A.timeTakenMs < B.timeTakenMs` holds,
so the claimed equivalence fails. -/
theorem leaderboard_rank_iff_cex :
    timeAttackLeaderboardTop demoTiedLB =
      [⟨"a", 10, 100, 0⟩, ⟨"b", 10, 100, 0⟩] ∧
    ¬((LBEntry.mk "b" 10 100 0).score < (LBEntry.mk "a" 10 100 0).score ∨
      ((LBEntry.mk "a" 10 100 0).score = (LBEntry.mk "b" 10 100 0).score ∧
        (LBEntry.mk "a" 10 100 0).timeTakenMs <
          (LBEntry.mk "b" 10 100 0).timeTakenMs)) := by decide

/-- Two leaderboard rows with distinct scores, used by the C5 witness. -/
def demoRankedLB : List LBEntry := [⟨"a", 10, 5, 0⟩, ⟨"b", 20, 7, 0⟩]

/-- Witness for C5 (amended) on a concrete two-entry leaderboard with distinct
scores. -/
theorem leaderboard_top_spec_witness :
    (timeAttackLeaderboardTop demoRankedLB).length ≤ 10 ∧
    ((0 : Nat) < (1 : Nat) ↔
      (((timeAttackLeaderboardTop demoRankedLB).get ⟨1, by decide⟩).score <
          ((timeAttackLeaderboardTop demoRankedLB).get ⟨0, by decide⟩).score ∨
        (((timeAttackLeaderboardTop demoRankedLB).get ⟨0, by decide⟩).score =
            ((timeAttackLeaderboardTop demoRankedLB).get ⟨1, by decide⟩).score ∧
          ((timeAttackLeaderboardTop demoRankedLB).get ⟨0, by decide⟩).timeTakenMs <
            ((timeAttackLeaderboardTop demoRankedLB).get ⟨1, by decide⟩).timeTakenMs))) :=
  ⟨(leaderboard_top_spec demoRankedLB).1,
   (leaderboard_top_spec demoRankedLB).2 ⟨0, by decide⟩ ⟨1, by decide⟩ (by decide)⟩

/-!
## Client play engine (`student-game-engine.js`) and authoring forms

`Math.round(x)` is modelled on exact rationals: every rounded quantity in the
engine has the form `num / den` with `den > 0`, and
`Math.round(num/den) = ⌊num/den + 1/2⌋ = (2·num + den) / (2·den)` with floor
division.  (JavaScript computes these in IEEE doubles; the claims under
verification only involve exactly representable values.) -/
def jsRound (num den : ℤ) : ℤ := (2 * num + den) / (2 * den)

theorem jsRound_exact (den q : ℤ) (hden : 0 < den) : jsRound (den * q) den = q := by
  unfold jsRound
  have h1 : 2 * (den * q) + den = den * (2 * q + 1) := by ring
  have h2 : 2 * den = den * 2 := by ring
  rw [h1, h2, Int.mul_ediv_mul_of_pos _ _ hden]
  omega

theorem jsRound_zero (den : ℤ) (hden : 0 < den) : jsRound 0 den = 0 := by
  unfold jsRound
  have h1 : 2 * (0 : ℤ) + den = den := by ring
  rw [h1, Int.ediv_eq_zero_of_lt (le_of_lt hden) (by omega)]

/-- A quiz question as the play engine reads it.  JavaScript object access
yields `undefined` for a missing property, hence the `Option` fields: the
engine reads `q.correct`, while the authoring form only ever writes
`q.correctIndex`. -/
structure QuizQuestion where
  text : String
  options : List String
  correct : Option Nat
  correctIndex : Option Nat
  points : Option Nat
deriving DecidableEq

/-- One question of the quiz authoring form (faculty-create-quiz.js lines
129–142): the selected radio value is parsed into `correctIndex`. -/
structure QuizFormQuestion where
  text : String
  options : List String
  correctIndex : Nat
  points : Nat
deriving DecidableEq

/-- The question list stored by the quiz form's submit handler: each parsed
question carries `correctIndex` (and `points`), and no `correct` property. -/
def authorQuiz (qs : List QuizFormQuestion) : List QuizQuestion :=
  qs.map (fun q =>
    { text := q.text, options := q.options, correct := none,
      correctIndex := some q.correctIndex, points := some q.points })

/-- `window.handleAnswer` (student-game-engine.js lines 215–220):
`if (selectedIndex === q.correct) score += 10`.  Strict equality between a
number and `undefined` is `false`, so a missing `correct` property never
scores. -/
def handleAnswer (q : QuizQuestion) (selectedIndex : Nat) (score : Nat) : Nat :=
  match q.correct with
  | some c => if selectedIndex = c then score + 10 else score
  | none => score

/-- The score accumulated by `playQuiz` over a full run: one `handleAnswer`
per question with the student's selected option index. -/
def playQuizScore (questions : List QuizQuestion) (answers : List Nat) : Nat :=
  (questions.zip answers).foldl (fun sc p => handleAnswer p.1 p.2 sc) 0

theorem playQuizScore_go_none (l : List (QuizQuestion × Nat)) (sc : Nat)
    (h : ∀ p ∈ l, p.1.correct = none) :
    l.foldl (fun sc p => handleAnswer p.1 p.2 sc) sc = sc := by
  induction l generalizing sc with
  | nil => rfl
  | cons p rest ih =>
    have hp : p.1.correct = none := h p (List.mem_cons_self p rest)
    simp only [List.foldl_cons, handleAnswer, hp]
    exact ih sc (fun q hq => h q (List.mem_cons_of_mem p hq))

/-- C7 (code evaluation): for every quiz built by the authoring form, the play
engine awards 0 points no matter which options are selected — in particular
when every question is answered with its stored `correctIndex` — because the
engine compares the selection against the nonexistent `correct` property.  The
second conjunct evaluates the failing input: a one-question authored quiz
answered with its stored correct index 0 scores 0, not 10. -/
theorem quiz_authored_scores_zero (formQs : List QuizFormQuestion) (answers : List Nat) :
    playQuizScore (authorQuiz formQs) answers = 0 ∧
    playQuizScore (authorQuiz [⟨"2+2?", ["4", "5"], 0, 10⟩]) [0] = 0 := by
  constructor
  · unfold playQuizScore
    refine playQuizScore_go_none _ 0 ?_
    intro p hp
    have h1 : p.1 ∈ authorQuiz formQs := (List.of_mem_zip hp).1
    obtain ⟨q, _, hq⟩ := List.mem_map.mp h1
    rw [← hq]
  · decide

/-- A fill-in game document as stored by the authoring form. -/
structure FillinGame where
  content : String
  blanks : List String
  totalPoints : Nat
  duration : Nat
deriving DecidableEq

/-- The fill-in authoring form's submit handler (faculty-create-fillin.js lines
36–49): the blanks are the bracketed words extracted from the content and
`totalPoints = blanks.length * 10`.  (The regex extraction is abstracted: the
extracted blank list is a parameter; the form refuses a content with no
blanks.) -/
def authorFillin (content : String) (blanks : List String) (duration : Nat) : FillinGame :=
  ⟨content, blanks, blanks.length * 10, duration⟩

/-- `window.checkFillIn` (student-game-engine.js lines 374–382): count the
blanks whose placed word strictly equals the stored answer, then
`score = Math.round((correct / blanks.length) * totalPoints)`.
`filledBlanks` maps a blank index to the placed word, `none` when empty
(`undefined === ans` is `false`). -/
def checkFillInScore (blanks : List String) (filledBlanks : Nat → Option String)
    (totalPoints : Nat) : ℤ :=
  let correct := (blanks.enum.filter (fun p => decide (filledBlanks p.1 = some p.2))).length
  jsRound ((correct : ℤ) * (totalPoints : ℤ)) (blanks.length : ℤ)

/-- C9: fill-in scoring.  For an authored fill-in game (at least one blank,
`totalPoints = 10` per blank): placing the stored answer in every blank scores
exactly `totalPoints`, and placing no word at all scores 0; the total points
value fixed by the authoring form is `blanks.length * 10`. -/
theorem fillin_score_spec (blanks : List String) (filledBlanks : Nat → Option String)
    (hne : blanks ≠ []) :
    (∀ content duration,
      (authorFillin content blanks duration).totalPoints = blanks.length * 10) ∧
    ((∀ p ∈ blanks.enum, filledBlanks p.1 = some p.2) →
      checkFillInScore blanks filledBlanks (blanks.length * 10) =
        ((blanks.length * 10 : Nat) : ℤ)) ∧
    ((∀ i, filledBlanks i = none) →
      ∀ totalPoints, checkFillInScore blanks filledBlanks totalPoints = 0) := by
  have hlen : 0 < blanks.length := List.length_pos.mpr hne
  refine ⟨fun _ _ => rfl, ?_, ?_⟩
  · intro hall
    have hfilter : blanks.enum.filter (fun p => decide (filledBlanks p.1 = some p.2)) =
        blanks.enum := by
      rw [List.filter_eq_self]
      intro p hp
      simp [hall p hp]
    simp only [checkFillInScore, hfilter, List.enum_length]
    exact jsRound_exact _ _ (by exact_mod_cast hlen)
  · intro hnone totalPoints
    have hfilter : blanks.enum.filter (fun p => decide (filledBlanks p.1 = some p.2)) = [] := by
      rw [List.filter_eq_nil_iff]
      intro p _
      simp [hnone p.1]
    simp only [checkFillInScore, hfilter, List.length_nil, Nat.cast_zero, zero_mul]
    exact jsRound_zero _ (by exact_mod_cast hlen)

/-- Witness for C9 on a concrete two-blank game: all-correct scores 20 = total
points, all-empty scores 0. -/
theorem fillin_score_spec_witness :
    checkFillInScore ["SELECT", "FROM"]
      (fun i => (["SELECT", "FROM"] : List String).get? i) (2 * 10) = ((2 * 10 : Nat) : ℤ) ∧
    checkFillInScore ["SELECT", "FROM"] (fun _ => none) 20 = 0 :=
  ⟨by
    have h := (fillin_score_spec ["SELECT", "FROM"]
      (fun i => (["SELECT", "FROM"] : List String).get? i) (by decide)).2.1 (by decide)
    exact h.trans (by decide),
   (fillin_score_spec ["SELECT", "FROM"] (fun _ => none) (by decide)).2.2
     (fun _ => rfl) 20⟩

/-- Levenshtein edit distance on character lists (insertions, deletions,
substitutions at unit cost). -/
def editDistance : List Char → List Char → Nat
  | [], ys => ys.length
  | xs, [] => xs.length
  | x :: xs, y :: ys =>
    if x = y then editDistance xs ys
    else 1 + min (editDistance xs (y :: ys)) (min (editDistance (x :: xs) ys) (editDistance xs ys))
termination_by xs ys => xs.length + ys.length
decreasing_by
  all_goals simp only [List.length_cons]
  all_goals omega

theorem editDistance_self (l : List Char) : editDistance l l = 0 := by
  induction l with
  | nil => simp [editDistance]
  | cons x xs ih => simp [editDistance, ih]

/-- Modelled from the spec: `calculateSimilarity` is called by `checkDebug`
(student-game-engine.js line 502) but its definition is not among the source
files.  The spec fixes only that it is "a simple normalized
edit-distance-style comparison" valued in [0, 100] whose round-trip on
identical strings yields 100; this realisation normalizes the Levenshtein
distance by the longer length. -/
def calculateSimilarity (a b : String) : Nat :=
  let m := max a.data.length b.data.length
  if m = 0 then 100 else 100 * (m - editDistance a.data b.data) / m

/-- `window.checkDebug` (student-game-engine.js lines 492–503): the similarity
between the submitted code and the reference solution, and
`score = Math.round((similarity / 100) * game.totalPoints)`. -/
def checkDebug (studentCode perfectCode : String) (totalPoints : Nat) : Nat × ℤ :=
  let similarity := calculateSimilarity studentCode perfectCode
  (similarity, jsRound ((similarity : ℤ) * (totalPoints : ℤ)) 100)

/-- C8: submitting code exactly identical to the stored reference solution
yields similarity 100 and a score equal to the game's totalPoints — the
similarity metric round-trips identical strings to 100. -/
theorem debug_identical_full_score (code : String) (totalPoints : Nat) :
    (checkDebug code code totalPoints).1 = 100 ∧
    (checkDebug code code totalPoints).2 = (totalPoints : ℤ) := by
  have hsim : calculateSimilarity code code = 100 := by
    unfold calculateSimilarity
    simp only [max_self]
    by_cases h : code.data.length = 0
    · rw [if_pos h]
    · rw [if_neg h, editDistance_self, Nat.sub_zero,
        Nat.mul_div_cancel _ (Nat.pos_of_ne_zero h)]
  refine ⟨by simp [checkDebug, hsim], ?_⟩
  simp only [checkDebug, hsim, Nat.cast_ofNat]
  exact jsRound_exact 100 (totalPoints : ℤ) (by norm_num)

/-- One line of an unjumble game as the engine tracks it: the displayed text
with its original index. -/
structure JumbleLine where
  text : String
  originalIndex : Nat
deriving DecidableEq

/-- An unjumble game document. -/
structure UnjumbleGame where
  id : String
  lines : List String
  totalPoints : Nat
  duration : Nat
deriving DecidableEq

/-- An activity record as appended to `student_activities` by `saveResult`
(student-game-engine.js lines 547–571): `score` is the rounded percentage,
`rawScore` the raw points (doubled under the doubleXP flag).  Identity and
timestamp metadata are omitted. -/
structure ClientActivity where
  gameId : String
  score : ℤ
  rawScore : ℤ
deriving DecidableEq

/-- `saveResult(game, score, totalPoints, startTime)`: appends one activity
record with `score` the rounded percentage `round((score/totalPoints)*100)`. -/
def saveResult (activities : List ClientActivity) (gameId : String)
    (score totalPoints : ℤ) (doubleXP : Bool) : List ClientActivity :=
  activities ++
    [⟨gameId, jsRound (score * 100) totalPoints, if doubleXP then score * 2 else score⟩]

/-- The live state of one unjumble play-through: the current arrangement, the
countdown (`timer` seconds left, decremented by the interval callback),
whether the interval is still scheduled (`clearInterval` has not run), and the
persisted activity log. -/
structure UnjumbleState where
  shuffledLines : List JumbleLine
  timer : ℤ
  timerActive : Bool
  activities : List ClientActivity
deriving DecidableEq

/-- The score computed by `window.checkUnjumble` (student-game-engine.js lines
268–277): `round((lines at their original position / line count) * totalPoints)`. -/
def unjumbleScore (game : UnjumbleGame) (arrangement : List JumbleLine) : ℤ :=
  let correct := (arrangement.enum.filter (fun p => decide (p.2.originalIndex = p.1))).length
  jsRound ((correct : ℤ) * (game.totalPoints : ℤ)) (game.lines.length : ℤ)

/-- `window.checkUnjumble` as a state transformer: computes the score and
appends one result record via `saveResult`.  Crucially, it does NOT clear the
pending interval (`timerInterval` is untouched anywhere in
`checkUnjumble`/`saveResult`/`showResult`). -/
def checkUnjumbleStep (game : UnjumbleGame) (doubleXP : Bool)
    (st : UnjumbleState) : UnjumbleState :=
  let acts := saveResult st.activities game.id (unjumbleScore game st.shuffledLines)
    (game.totalPoints : ℤ) doubleXP
  { st with activities := acts }

/-- One firing of the `setInterval` callback installed by `startTimer`
(student-game-engine.js lines 591–616): if the interval is still scheduled,
decrement the timer; when it drops below zero, `clearInterval` and force
`onFinish()` — for unjumble, `checkUnjumble`. -/
def tickStep (game : UnjumbleGame) (doubleXP : Bool) (st : UnjumbleState) : UnjumbleState :=
  if st.timerActive then
    let t := st.timer - 1
    if t < 0 then
      checkUnjumbleStep game doubleXP { st with timer := t, timerActive := false }
    else
      { st with timer := t }
  else st

/-- The two externally visible events of a play-through: the student clicking
"Submit Solution", and the countdown interval firing once. -/
inductive ClientEvent where
  | submitClick
  | tick
deriving DecidableEq

def clientStep (game : UnjumbleGame) (doubleXP : Bool) (st : UnjumbleState) :
    ClientEvent → UnjumbleState
  | ClientEvent.submitClick => checkUnjumbleStep game doubleXP st
  | ClientEvent.tick => tickStep game doubleXP st

def runClient (game : UnjumbleGame) (doubleXP : Bool) (st : UnjumbleState)
    (events : List ClientEvent) : UnjumbleState :=
  events.foldl (clientStep game doubleXP) st

/-- `playUnjumble` start-up: some shuffled arrangement, the countdown at
`duration * 60` seconds, the interval scheduled, no results yet. -/
def startUnjumble (game : UnjumbleGame) (arrangement : List JumbleLine) : UnjumbleState :=
  { shuffledLines := arrangement, timer := (game.duration : ℤ) * 60,
    timerActive := true, activities := [] }

/-- A 2-line, 1-minute unjumble game, played with the lines already in their
original order. -/
def demoJumble : UnjumbleGame := ⟨"g1", ["a", "b"], 10, 1⟩

def demoArrangement : List JumbleLine := [⟨"a", 0⟩, ⟨"b", 1⟩]

set_option maxRecDepth 8000 in
/-- C6 (code evaluation): the countdown is never cancelled at manual
finalization, so a timer that expires after the student already submitted
forces a second finalization and appends a second result record.  After the
manual submit alone the activity log has one record; after the manual submit
followed by 61 ticks (60 to run the 1-minute countdown down to 0, one more to
drop below 0 and fire `onFinish`) it has two. -/
theorem timer_refires_after_manual_submit :
    (runClient demoJumble false (startUnjumble demoJumble demoArrangement)
        [ClientEvent.submitClick]).activities.length = 1 ∧
    (runClient demoJumble false (startUnjumble demoJumble demoArrangement)
        (ClientEvent.submitClick :: List.replicate 61 ClientEvent.tick)).activities.length
      = 2 := by decide

/-- C10 (amended): the submit endpoint rejects with 400 exactly when
`sessionId` is falsy (absent, `null`, `false`, `0`, or the empty string) or
`isCorrect` is absent (`undefined`) — not only when the fields are absent.
Any present `isCorrect` value of any JSON type passes validation; on an
accepted submit the 10-point increment is awarded iff the value is truthy
(so the non-empty string "false" scores 10 while `0`, `null` and `false`
score nothing), and the logged `GameSubmission` stores the value coerced to a
boolean (`!!isCorrect`). -/
theorem submit_validation_spec (catalog : List Game) (st : ServerState)
    (userSub : String) (sessionId isCorrect : JSVal) (now : Nat) :
    ((timeAttackSubmit catalog st userSub sessionId isCorrect now).1 =
        SubmitResult.badRequest ↔
      (sessionId.truthy = false ∨ isCorrect = JSVal.undef)) ∧
    (JSVal.truthy (JSVal.str "false") = true ∧
      JSVal.truthy (JSVal.num 0) = false ∧
      JSVal.truthy JSVal.null = false ∧
      JSVal.truthy (JSVal.bool false) = false) ∧
    (∀ sid s, sessionId = JSVal.str sid → sid ≠ "" → isCorrect ≠ JSVal.undef →
      findSession st.sessions sid = some s → s.studentId = userSub →
      s.status = SessionStatus.inProgress →
      (findSession (timeAttackSubmit catalog st userSub sessionId
          isCorrect now).2.sessions sid).map Session.score =
        some (if isCorrect.truthy then s.score + 10 else s.score) ∧
      (timeAttackSubmit catalog st userSub sessionId isCorrect now).2.submissions =
        st.submissions ++
          [⟨s.questions.get? s.currentQuestionIndex, userSub, isCorrect.truthy⟩]) := by
  refine ⟨?_, by decide, ?_⟩
  · by_cases hbad : ¬ sessionId.truthy = true ∨ isCorrect = JSVal.undef
    · rw [submit_badRequest_eq catalog st userSub sessionId isCorrect now hbad]
      simp only [true_iff]
      rcases hbad with h | h
      · exact Or.inl (by simpa using h)
      · exact Or.inr h
    · push_neg at hbad
      obtain ⟨htru, hic⟩ := hbad
      have hne : ¬ (sessionId.truthy = false ∨ isCorrect = JSVal.undef) := by
        push_neg
        exact ⟨by simp [htru], hic⟩
      refine iff_of_false ?_ hne
      cases sessionId with
      | undef => simp [JSVal.truthy] at htru
      | null => simp [JSVal.truthy] at htru
      | bool b =>
        unfold timeAttackSubmit
        rw [if_neg (by simp [htru, hic])]
        simp
      | num n =>
        unfold timeAttackSubmit
        rw [if_neg (by simp [htru, hic])]
        simp
      | str sid =>
        have hsid : sid ≠ "" := by
          intro h; rw [h] at htru; simp [JSVal.truthy] at htru
        cases h : findSession st.sessions sid with
        | none =>
          rw [submit_absent_eq catalog st userSub sid isCorrect now hsid hic h]
          simp
        | some session =>
          by_cases hrej : session.studentId ≠ userSub ∨
              session.status ≠ SessionStatus.inProgress
          · rw [submit_guard_eq catalog st userSub sid isCorrect now session hsid hic h hrej]
            simp
          · push_neg at hrej
            rw [submit_accepted_eq catalog st userSub sid isCorrect now session hsid hic h
              hrej.1 hrej.2]
            simp only
            split <;> simp
  · intro sid s hsid' hsid hic hfind hown hstat
    subst hsid'
    rw [submit_accepted_eq catalog st userSub sid isCorrect now s hsid hic hfind hown hstat]
    simp only
    split
    · constructor
      · rw [findSession_setSession, if_pos ⟨rfl, by rw [hfind]; rfl⟩]
        rfl
      · rfl
    · constructor
      · rw [findSession_setSession, if_pos ⟨rfl, by rw [hfind]; rfl⟩]
        rfl
      · rfl

/-- Counterexample to C10 as stated: a request whose `sessionId` is the
*present* value `""` (an empty string, not `undefined`) is nevertheless
rejected with 400, because the handler tests JavaScript truthiness
(`!sessionId`), not absence. -/
theorem submit_validation_cex :
    timeAttackSubmit demoCatalog demoState1 "u" (JSVal.str "") (JSVal.bool true) 5 =
      (SubmitResult.badRequest, demoState1) ∧
    JSVal.str "" ≠ JSVal.undef := by decide

/-- Witness for C10 (amended): submitting the non-empty string `"false"` as
`isCorrect` on the fresh demo session passes validation, scores the 10-point
increment, and logs a submission with `isCorrect` coerced to `true`. -/
theorem submit_validation_spec_witness :
    (findSession (timeAttackSubmit demoCatalog demoState1 "u" (JSVal.str "s1")
        (JSVal.str "false") 5).2.sessions "s1").map Session.score = some 10 ∧
    (timeAttackSubmit demoCatalog demoState1 "u" (JSVal.str "s1")
        (JSVal.str "false") 5).2.submissions = [⟨some 1, "u", true⟩] := by
  have h := (submit_validation_spec demoCatalog demoState1 "u" (JSVal.str "s1")
      (JSVal.str "false") 5).2.2 "s1" demoSession1 rfl (by decide) (by decide)
      (by decide) (by decide) (by decide)
  exact ⟨h.1.trans (by decide), h.2.trans (by decide)⟩

end Mindwave
